import Mathlib

/-!
Verification of the metrics-extraction core of `core/src/image.js`
(class `Image`: `setImgSize`, `fixAfterResize`, `getMetricsFromSvgString`,
`getMetricsFromBytes`).

The JavaScript is shallowly embedded:

* JS numbers are modelled by exact rationals (`ℚ`); the non-finite values
  `NaN`, `Infinity` and `-Infinity` that JS arithmetic can produce are
  explicit constructors of `JsVal`.  The float literal `39.37` is modelled
  by the rational `3937/100`.
* The metrics associative arrays of the source (entries cw, ch, cb, dpi)
  become the record `MetricsArr` whose fields hold JS values (undefined
  when a key was never assigned).
* The byte-cursor helpers of `util.js` are not part of the sources; they
  are modelled from the specification (ByteCursor, Base64Decoder,
  LegacyUrlMetricsParser), see the doc comments marked
  "Modelled from the spec".  A failed read (`OutOfBounds`) or a malformed
  base64 payload (`InvalidEncoding`) makes the surrounding extraction
  degrade to "no geometry applied", as the specification prescribes.
* The DOM image element is the record `Img`: the code reads `src` and
  writes `width`, `height`, `style.verticalAlign` and `style.maxWidth`.
  A written `style.verticalAlign` value `v` stands for the CSS string
  "-" ++ String(v) ++ "px" produced on line 86 of the source.
-/

/-- A JavaScript value as needed by the image code: `undefined`, booleans,
finite numbers (exact rationals), `NaN`, the infinities, and strings. -/
inductive JsVal where
  | undef
  | bool (b : Bool)
  | num (q : ℚ)
  | nan
  | inf
  | neginf
  | str (s : String)
deriving DecidableEq

/-- The JS `typeof` operator restricted to the values of `JsVal`. -/
def jsTypeof : JsVal → String
  | .undef => "undefined"
  | .bool _ => "boolean"
  | .num _ => "number"
  | .nan => "number"
  | .inf => "number"
  | .neginf => "number"
  | .str _ => "string"

/-- JS falsiness: `undefined`, `false`, `0`, `NaN` and `""` are falsy. -/
def jsFalsy : JsVal → Bool
  | .undef => true
  | .bool b => !b
  | .num q => q = 0
  | .nan => true
  | .inf => false
  | .neginf => false
  | .str s => s = ""

/-- Value of a decimal digit character. -/
def digitVal (c : Char) : Option Nat :=
  if '0' ≤ c ∧ c ≤ '9' then some (c.toNat - 48) else none

/-- Reads a non-empty all-digit character list as a natural number. -/
def decDigits : List Char → Option Nat
  | [] => some 0
  | c :: cs => (digitVal c).bind fun d => (decDigits cs).map fun n => d * 10 ^ cs.length + n

/-- The JS `ToNumber` coercion, restricted to the value shapes that occur in
this code: the empty string converts to `0`, an unsigned decimal-digit
string to its value, any other string to `NaN` (signs, decimal points and
whitespace trimming do not occur in the payloads considered). -/
def jsToNumber : JsVal → JsVal
  | .undef => .nan
  | .bool b => .num (if b then 1 else 0)
  | .num q => .num q
  | .nan => .nan
  | .inf => .inf
  | .neginf => .neginf
  | .str s =>
    if s.data = [] then .num 0
    else match decDigits s.data with
      | some n => .num (n : ℚ)
      | none => .nan

/-- JS multiplication (after `ToNumber`); infinite operands do not arise in
the payloads considered, they are handled sign-correctly for nonnegative
finite partners. -/
def jsMul (a b : JsVal) : JsVal :=
  match jsToNumber a, jsToNumber b with
  | .num p, .num q => .num (p * q)
  | .num p, .inf | .inf, .num p => if p = 0 then .nan else if p < 0 then .neginf else .inf
  | .num p, .neginf | .neginf, .num p => if p = 0 then .nan else if p < 0 then .inf else .neginf
  | .inf, .inf | .neginf, .neginf => .inf
  | .inf, .neginf | .neginf, .inf => .neginf
  | _, _ => .nan

/-- JS division (after `ToNumber`); division by zero yields an infinity
(`0/0` yields `NaN`), as in JS. -/
def jsDiv (a b : JsVal) : JsVal :=
  match jsToNumber a, jsToNumber b with
  | .num p, .num q =>
    if q = 0 then (if p = 0 then .nan else if p < 0 then .neginf else .inf)
    else .num (p / q)
  | .num _, .inf | .num _, .neginf => .num 0
  | .inf, .num q => if q < 0 then .neginf else .inf
  | .neginf, .num q => if q < 0 then .inf else .neginf
  | _, _ => .nan

/-- JS subtraction (after `ToNumber`). -/
def jsSub (a b : JsVal) : JsVal :=
  match jsToNumber a, jsToNumber b with
  | .num p, .num q => .num (p - q)
  | .num _, .inf => .neginf
  | .num _, .neginf => .inf
  | .inf, .num _ => .inf
  | .neginf, .num _ => .neginf
  | .inf, .neginf => .inf
  | .neginf, .inf => .neginf
  | _, _ => .nan

/-- The `Math.round` of JS: round half toward positive infinity,
`Math.round x = ⌊x + 1/2⌋` (on finite values). -/
def jsRound (q : ℚ) : ℤ := ⌊q + 1 / 2⌋

/-- The metrics mapping built by the extraction routines (the entries
cw, ch, cb and dpi of the array `ar` in the source); a field is
`JsVal.undef` when the key was never assigned. -/
structure MetricsArr where
  cw : JsVal := .undef
  ch : JsVal := .undef
  cb : JsVal := .undef
  dpi : JsVal := .undef
deriving DecidableEq

/-- The DOM image element as seen by this code: `src` is read; `width`,
`height`, `style.verticalAlign` and `style.maxWidth` are written (a `none`
field is an absent attribute).  `styleVerticalAlign = some v` records that
the CSS text "-" ++ String(v) ++ "px" was assigned on line 86. -/
structure Img where
  src : String
  width : Option JsVal := none
  height : Option JsVal := none
  styleVerticalAlign : Option JsVal := none
  styleMaxWidth : Option String := none
deriving DecidableEq

/-- The two configuration settings the code queries through
Configuration.get, named imageFormat and saveMode; configuration.js is not
part of the sources, the spec describes the two string-valued settings at
the collaborator boundary. -/
structure Config where
  imageFormat : String
  saveMode : String

/-! ### ByteCursor (modelled from the spec)

The cursor is represented by the list of bytes not yet consumed; a read
returns the value together with the remaining bytes, or `none` when fewer
bytes remain than requested (the `OutOfBounds` failure of the spec). -/

/-- Modelled from the spec: `Util.readInt32` (util.js is not in the
sources).  Reads 4 bytes and interprets them as a big-endian unsigned
32-bit integer, advancing by 4; fails with `OutOfBounds` (`none`) when
fewer than 4 bytes remain. -/
def readInt32 : List Nat → Option (Nat × List Nat)
  | b0 :: b1 :: b2 :: b3 :: rest => some (((b0 * 256 + b1) * 256 + b2) * 256 + b3, rest)
  | _ => none

/-- Modelled from the spec: `Util.readByte`.  Reads one byte, advancing
by 1; fails when no byte remains. -/
def readByte : List Nat → Option (Nat × List Nat)
  | b :: rest => some (b, rest)
  | _ => none

/-- Modelled from the spec: `Util.readBytes` (called as
`readBytes(bytes, 0, n)`).  Returns the next `n` bytes and the remaining
cursor; fails with `OutOfBounds` when fewer than `n` bytes remain. -/
def readBytesC (n : Nat) (bytes : List Nat) : Option (List Nat × List Nat) :=
  if bytes.length < n then none else some (bytes.take n, bytes.drop n)

/-! ### Base64 decoder (modelled from the spec) -/

/-- Value of a standard base64 alphabet character. -/
def b64CharVal (c : Char) : Option Nat :=
  if 'A' ≤ c ∧ c ≤ 'Z' then some (c.toNat - 65)
  else if 'a' ≤ c ∧ c ≤ 'z' then some (c.toNat - 97 + 26)
  else if '0' ≤ c ∧ c ≤ '9' then some (c.toNat - 48 + 52)
  else if c = '+' then some 62
  else if c = '/' then some 63
  else none

/-- Modelled from the spec: the core of `Util.b64ToByteArray` — standard
base64 decoding of a character list into bytes, honouring the padding
conventions; `none` on malformed input (the `InvalidEncoding` failure). -/
def b64DecodeList : List Char → Option (List Nat)
  | [] => some []
  | a :: b :: '=' :: '=' :: [] =>
    (b64CharVal a).bind fun va => (b64CharVal b).map fun vb =>
      [va * 4 + vb / 16]
  | a :: b :: c :: '=' :: [] =>
    (b64CharVal a).bind fun va => (b64CharVal b).bind fun vb => (b64CharVal c).map fun vc =>
      [va * 4 + vb / 16, vb % 16 * 16 + vc / 4]
  | a :: b :: c :: d :: rest =>
    (b64CharVal a).bind fun va => (b64CharVal b).bind fun vb =>
    (b64CharVal c).bind fun vc => (b64CharVal d).bind fun vd =>
    (b64DecodeList rest).map fun bs =>
      (va * 4 + vb / 16) :: (vb % 16 * 16 + vc / 4) :: (vc % 4 * 64 + vd) :: bs
  | _ => none

/-- Modelled from the spec: `Util.b64ToByteArray(string, maxLength)` —
decode standard base64, capped to at most `maxLen` output bytes (used to
decode only the metrics-bearing prefix of a PNG). -/
def b64ToByteArray (s : String) (maxLen : Nat) : Option (List Nat) :=
  (b64DecodeList s.data).map fun bs => bs.take maxLen

/-- `String.fromCharCode` applied pointwise, as in the loop on lines 57-59
of the source (codes are taken modulo 2^16 as JS does; an invalid code
point maps to the NUL character). -/
def bytesToString (bs : List Nat) : String :=
  ⟨bs.map fun b => Char.ofNat (b % 65536)⟩

/-! ### JS string primitives used by the source -/

/-- Kernel of `String.prototype.indexOf`: prefix test on character lists. -/
def listPre : List Char → List Char → Bool
  | [], _ => true
  | _ :: _, [] => false
  | a :: as, b :: bs => if a = b then listPre as bs else false

/-- Kernel of `String.prototype.indexOf`: first index `≥ i` where `needle`
occurs in the remaining haystack, `-1` when there is none. -/
def idxAux (needle : List Char) : List Char → Nat → Int
  | [], i => if listPre needle [] then (i : Int) else -1
  | h :: t, i => if listPre needle (h :: t) then (i : Int) else idxAux needle t (i + 1)

/-- `s.indexOf(needle, start)`: the `start` position is clamped to
`[0, s.length]`; returns the first occurrence position or `-1`. -/
def jsIndexOfFrom (s needle : String) (start : Int) : Int :=
  let f : Nat := min start.toNat s.data.length
  idxAux needle.data (s.data.drop f) f

/-- `s.indexOf(needle)`. -/
def jsIndexOf (s needle : String) : Int := jsIndexOfFrom s needle 0

/-- `s.substring(a, b)`: both arguments are clamped to `[0, s.length]` and
swapped when out of order. -/
def jsSubstring (s : String) (a b : Int) : String :=
  let n := s.data.length
  let a2 := min a.toNat n
  let b2 := min b.toNat n
  ⟨(s.data.drop (min a2 b2)).take (max a2 b2 - min a2 b2)⟩

/-- `s.substr(start, len)`: a negative `start` counts from the end
(clamped at 0); `len` characters are taken (none for `len ≤ 0`). -/
def jsSubstr (s : String) (start len : Int) : String :=
  let n := s.data.length
  let st : Nat := if start < 0 then ((n : Int) + start).toNat else start.toNat
  ⟨(s.data.drop st).take len.toNat⟩

/-- Value of a hexadecimal digit character. -/
def hexVal (c : Char) : Option Nat :=
  if '0' ≤ c ∧ c ≤ '9' then some (c.toNat - 48)
  else if 'a' ≤ c ∧ c ≤ 'f' then some (c.toNat - 87)
  else if 'A' ≤ c ∧ c ≤ 'F' then some (c.toNat - 55)
  else none

/-- Percent-decoding as performed by the JS builtin `decodeURIComponent`,
at the byte level (a malformed escape, on which JS raises `URIError`, is
left in place; no theorem exercises this builtin). -/
def pctDecode : List Char → List Char
  | [] => []
  | '%' :: h1 :: h2 :: rest =>
    match hexVal h1, hexVal h2 with
    | some a, some b => Char.ofNat (a * 16 + b) :: pctDecode rest
    | _, _ => '%' :: pctDecode (h1 :: h2 :: rest)
  | c :: rest => c :: pctDecode rest

/-- The JS builtin `decodeURIComponent` on strings. -/
def decodeURIComponentStr (s : String) : String := ⟨pctDecode s.data⟩

/-! ### PNG metrics extraction (`getMetricsFromBytes`, lines 152-187) -/

/-- The local variables `width`, `height`, `baseline`, `dpi` of
`getMetricsFromBytes` (`none` while still `undefined`). -/
structure PngAcc where
  width : Option ℚ := none
  height : Option ℚ := none
  baseline : Option ℚ := none
  dpi : Option ℚ := none
deriving DecidableEq

/-- The if/else-if chain of lines 159-172, dispatching on the chunk type
read on line 158: IHDR (`0x49484452`, lines 160-164), baSE (`0x62615345`,
line 166), pHYs (`0x70485973`, lines 168-171).  Any other type runs no
branch at all — in particular the body of an unknown chunk is NOT skipped
(`len` from line 157 is never used in the source). -/
def pngChunkBody (typ : Nat) (r2 : List Nat) (acc : PngAcc) : Option (List Nat × PngAcc) :=
  if typ = 0x49484452 then
    match readInt32 r2 with
    | none => none
    | some (w, r3) =>
      match readInt32 r3 with
      | none => none
      | some (h, r4) =>
        match readInt32 r4 with
        | none => none
        | some (_, r5) =>
          match readByte r5 with
          | none => none
          | some (_, r6) => some (r6, { acc with width := some (w : ℚ), height := some (h : ℚ) })
  else if typ = 0x62615345 then
    match readInt32 r2 with
    | none => none
    | some (b, r3) => some (r3, { acc with baseline := some (b : ℚ) })
  else if typ = 0x70485973 then
    match readInt32 r2 with
    | none => none
    | some (v, r3) =>
      match readInt32 r3 with
      | none => none
      | some (_, r4) =>
        match readByte r4 with
        | none => none
        | some (_, r5) =>
          some (r5, { acc with dpi := some ((jsRound ((v : ℚ) / (3937 / 100)) : ℤ) : ℚ) })
  else some (r2, acc)

/-- One iteration of the chunk loop (lines 157-173): read the chunk length
(line 157; the value is bound but never used to skip the body, exactly as
in the source), read the chunk type, run the matching branch, then perform
the final `readInt32` of line 173 (intended as the CRC trailer).  Returns
the remaining cursor and the updated variables, or `none` on an
out-of-bounds read. -/
def pngStep (bytes : List Nat) (acc : PngAcc) : Option (List Nat × PngAcc) :=
  match readInt32 bytes with
  | none => none
  | some (_len, r1) =>
    match readInt32 r1 with
    | none => none
    | some (typ, r2) =>
      match pngChunkBody typ r2 acc with
      | none => none
      | some (r, acc2) =>
        match readInt32 r with
        | none => none
        | some (_, rf) => some (rf, acc2)

/-- The `while (bytes.length >= 4)` loop of lines 156-174, driven by a fuel
counter; any fuel exceeding the number of bytes is sufficient (proved
below), and the wrapper `getMetricsFromBytes` supplies such a fuel. -/
def pngLoopF : Nat → List Nat → PngAcc → Option PngAcc
  | 0, _, _ => none
  | f + 1, bytes, acc =>
    if bytes.length < 4 then some acc
    else match pngStep bytes acc with
      | none => none
      | some (rest, acc2) => pngLoopF f rest acc2

/-- `Image.getMetricsFromBytes` (lines 152-187): skip the 8-byte PNG
signature, run the chunk loop, then build the metrics mapping; the
function returns `undefined` (`none`) when `width` was never assigned, and
an out-of-bounds cursor read also degrades to "no metrics". -/
def getMetricsFromBytes (bytes : List Nat) : Option MetricsArr :=
  match readBytesC 8 bytes with
  | none => none
  | some (_, rest) =>
    match pngLoopF (rest.length + 1) rest {} with
    | none => none
    | some acc =>
      match acc.width with
      | none => none
      | some w =>
        some { cw := .num w,
               ch := match acc.height with | some h => .num h | none => .undef,
               dpi := match acc.dpi with | some d => .num d | none => .undef,
               cb := match acc.baseline with
                     | some b => if b = 0 then .undef else .num b
                     | none => .undef }

/-! ### SVG metrics extraction (`getMetricsFromSvgString`, lines 121-144) -/

/-- `Image.getMetricsFromSvgString`: three substring scans, then the guard
of line 134 — typeof applied to the boolean result of comparing width with
the text undefined, a nonempty string, hence always truthy — and the guard
of line 138, comparing typeof of baseline with the text undefined, where
baseline is always a string. -/
def getMetricsFromSvgString (svgString : String) : Option MetricsArr :=
  let first := jsIndexOf svgString "height=\""
  let last := jsIndexOfFrom svgString "\"" (first + 8)
  let height := jsSubstring svgString (first + 8) last
  let first2 := jsIndexOf svgString "width=\""
  let last2 := jsIndexOfFrom svgString "\"" (first2 + 7)
  let width := jsSubstring svgString (first2 + 7) last2
  let first3 := jsIndexOf svgString "wrs:baseline=\""
  let last3 := jsIndexOfFrom svgString "\"" (first3 + 14)
  let baseline := jsSubstring svgString (first3 + 14) last3
  if jsFalsy (.str (jsTypeof (.bool (decide (width ≠ "undefined"))))) = false then
    some { cw := .str width,
           ch := .str height,
           cb := if jsTypeof (.str baseline) ≠ "undefined" then .str baseline else .undef }
  else none

/-! ### Legacy URL metrics (modelled from the spec) -/

/-- Splits a character list at every occurrence of the separator. -/
def splitOnChar (sep : Char) : List Char → List (List Char)
  | [] => [[]]
  | c :: rest =>
    let r := splitOnChar sep rest
    if c = sep then [] :: r
    else match r with
      | [] => [[c]]
      | g :: gs => (c :: g) :: gs

/-- Modelled from the spec: `Util.urlToAssArray` (util.js is not in the
sources).  "Parses the query-string suffix of a URL into a key/value
mapping with keys cw (width), ch (height), cb (baseline), dpi.  Unknown
keys are ignored; missing keys leave the corresponding field absent."
Values are the raw strings. -/
def urlToAssArray (url : String) : MetricsArr :=
  match jsIndexOf url "?" with
  | .negSucc _ => {}
  | .ofNat i =>
    let query := (url.data.drop (i + 1))
    (splitOnChar '&' query).foldl
      (fun arr pair =>
        match splitOnChar '=' pair with
        | [k, v] =>
          if k = "cw".data then { arr with cw := .str ⟨v⟩ }
          else if k = "ch".data then { arr with ch := .str ⟨v⟩ }
          else if k = "cb".data then { arr with cb := .str ⟨v⟩ }
          else if k = "dpi".data then { arr with dpi := .str ⟨v⟩ }
          else arr
        | _ => arr) {}

/-! ### Normalization and orchestration (`setImgSize`, lines 45-87,
and `fixAfterResize`, lines 93-113) -/

/-- Lines 72-87 of `setImgSize`: bail out when `width` is falsy, rescale
by `96/dpi` when `dpi` is truthy, then write `width`, `height` and the
vertical-align style (always written; with an absent baseline the
subtraction yields `NaN` and the CSS text is the invalid "-NaNpx").
When the metrics mapping itself is undefined (here `none`), the read of
the cw entry on line 72 throws before any write, leaving the element
untouched. -/
def applyMetrics (img : Img) : Option MetricsArr → Img
  | none => img
  | some ar =>
    if jsFalsy ar.cw then img
    else
      let dpiTruthy := jsFalsy ar.dpi = false
      let width := if dpiTruthy then jsDiv (jsMul ar.cw (.num 96)) ar.dpi else ar.cw
      let height := if dpiTruthy then jsDiv (jsMul ar.ch (.num 96)) ar.dpi else ar.ch
      let baseline := if dpiTruthy then jsDiv (jsMul ar.cb (.num 96)) ar.dpi else ar.cb
      { img with width := some width, height := some height,
                 styleVerticalAlign := some (jsSub height baseline) }

/-- Lines 64-66: take the substring of `img.src` after the base64 comma
marker, decode at most 88 bytes, and read the PNG metrics. -/
def pngMetricsOfImg (img : Img) : Option MetricsArr :=
  let base64String := jsSubstr img.src (jsIndexOf img.src "base64," + 7) (img.src.data.length : Int)
  match b64ToByteArray base64String 88 with
  | none => none
  | some bytes => getMetricsFromBytes bytes

/-- Lines 54-60: take the substring of `img.src` after the base64 comma
marker, decode it fully, rebuild the SVG text with `String.fromCharCode`,
and read the SVG metrics. -/
def svgMetricsOfImg (img : Img) : Option MetricsArr :=
  let base64String := jsSubstr img.src (jsIndexOf img.src "base64," + 7) (img.src.data.length : Int)
  match b64ToByteArray base64String base64String.data.length with
  | none => none
  | some bytes => getMetricsFromSvgString (bytesToString bytes)

/-- `Image.setImgSize(img, uri, jsonResponse)` (lines 45-87). -/
def setImgSize (cfg : Config) (img : Img) (uri : String) (jsonResponse : Bool) : Img :=
  let ar : Option MetricsArr :=
    if jsonResponse then
      if cfg.imageFormat = "svg" then
        if cfg.saveMode ≠ "base64" then getMetricsFromSvgString uri
        else svgMetricsOfImg img
      else pngMetricsOfImg img
    else some (urlToAssArray uri)
  applyMetrics img ar

/-- `Image.fixAfterResize(img)` (lines 93-113): strip `style`, `width` and
`height`, force `max-width: none`, then re-derive the size from the data
URI (32-character SVG prefix, 22-character PNG prefix) or, for a non-data
src, from the legacy URL path (`setImgSize` called without `jsonResponse`,
which is then `undefined`, hence falsy). -/
def fixAfterResize (cfg : Config) (img : Img) : Img :=
  let img1 : Img := { img with width := none, height := none,
                               styleVerticalAlign := none, styleMaxWidth := some "none" }
  if jsIndexOf img.src "data:image" ≠ -1 then
    if cfg.imageFormat = "svg" then
      setImgSize cfg img1 (decodeURIComponentStr (jsSubstring img.src 32 (img.src.data.length : Int))) true
    else
      setImgSize cfg img1 (jsSubstring img.src 22 (img.src.data.length : Int)) true
  else setImgSize cfg img1 img1.src false

/-- Reference for the refinement claim, following the words of the spec:
"direct PNG parsing of the equivalent raw bytes" — the payload is decoded
in full (no 88-byte cap) and the resulting raw bytes are fed to the PNG
parser and the normalizer. -/
def directPngGeometry (img : Img) (payload : String) : Img :=
  applyMetrics img ((b64DecodeList payload.data).bind getMetricsFromBytes)

/-! ### Service-shaped PNG payloads

To state universal properties of `getMetricsFromBytes` we encode chunk
lists into byte sequences following the standard PNG layout
`[4-byte length][4-byte type][body][4-byte CRC]`.  `SChunk` covers the
three chunk types the parser interprets, with their standard body sizes
(13 bytes for IHDR, 4 for baSE, 9 for pHYs); body and CRC filler bytes are
arbitrary naturals. -/

/-- Big-endian 4-byte encoding of a 32-bit value. -/
def be32 (n : Nat) : List Nat :=
  [n / 2 ^ 24 % 256, n / 2 ^ 16 % 256, n / 2 ^ 8 % 256, n % 256]

/-- A chunk of one of the three types the parser interprets. -/
inductive SChunk where
  | ihdr (w h : Nat) (e0 e1 e2 e3 e4 : Nat) (c0 c1 c2 c3 : Nat)
  | base (b : Nat) (c0 c1 c2 c3 : Nat)
  | phys (v : Nat) (y0 y1 y2 y3 : Nat) (u : Nat) (c0 c1 c2 c3 : Nat)
deriving DecidableEq

/-- Well-formedness: the 4-byte payload fields fit in 32 bits. -/
def SChunk.wfB : SChunk → Bool
  | .ihdr w h _ _ _ _ _ _ _ _ _ => decide (w < 2 ^ 32) && decide (h < 2 ^ 32)
  | .base b _ _ _ _ => decide (b < 2 ^ 32)
  | .phys v _ _ _ _ _ _ _ _ _ => decide (v < 2 ^ 32)

/-- Whether the chunk is the IHDR header chunk. -/
def SChunk.isIhdrB : SChunk → Bool
  | .ihdr .. => true
  | _ => false

/-- Whether the chunk is the pHYs physical-resolution chunk. -/
def SChunk.isPhysB : SChunk → Bool
  | .phys .. => true
  | _ => false

/-- Whether the chunk is the baSE baseline chunk. -/
def SChunk.isBaseB : SChunk → Bool
  | .base .. => true
  | _ => false

/-- Standard PNG encoding of a chunk:
length, type, body (13/4/9 bytes), CRC. -/
def encChunk : SChunk → List Nat
  | .ihdr w h e0 e1 e2 e3 e4 c0 c1 c2 c3 =>
    be32 13 ++ (be32 0x49484452 ++ (be32 w ++ (be32 h ++ [e0, e1, e2, e3, e4, c0, c1, c2, c3])))
  | .base b c0 c1 c2 c3 =>
    be32 4 ++ (be32 0x62615345 ++ (be32 b ++ [c0, c1, c2, c3]))
  | .phys v y0 y1 y2 y3 u c0 c1 c2 c3 =>
    be32 9 ++ (be32 0x70485973 ++ (be32 v ++ [y0, y1, y2, y3, u, c0, c1, c2, c3]))

/-- Encoding of a chunk sequence. -/
def encChunks : List SChunk → List Nat
  | [] => []
  | c :: cs => encChunk c ++ encChunks cs

/-- The effect of one interpreted chunk on the loop variables (what one
iteration of the loop provably does to a `wfB` chunk, proved below). -/
def stepSpec (acc : PngAcc) : SChunk → PngAcc
  | .ihdr w h .. => { acc with width := some (w : ℚ), height := some (h : ℚ) }
  | .base b .. => { acc with baseline := some (b : ℚ) }
  | .phys v .. => { acc with dpi := some ((jsRound ((v : ℚ) / (3937 / 100)) : ℤ) : ℚ) }

/-- The standard 8-byte PNG signature. -/
def pngSig : List Nat := [137, 80, 78, 71, 13, 10, 26, 10]

/-- A 16-byte unknown chunk (type tEXt) with a 4-byte body. -/
def tEXtChunk4 : List Nat := [0, 0, 0, 4, 116, 69, 88, 116, 9, 9, 9, 9, 7, 7, 7, 7]

/-- An IHDR chunk with width 5 and height 6 (13-byte body, CRC filler). -/
def ihdrChunk56 : List Nat :=
  [0, 0, 0, 13, 73, 72, 68, 82, 0, 0, 0, 5, 0, 0, 0, 6, 8, 6, 0, 0, 0, 1, 1, 1, 1]

/-- A pHYs chunk with X resolution 2835 pixels per meter (9-byte body). -/
def physChunk2835 : List Nat :=
  [0, 0, 0, 9, 112, 72, 89, 115, 0, 0, 11, 19, 0, 0, 11, 19, 1, 1, 1, 1, 1]

/-- A 109-byte PNG-layout payload — signature, IHDR (width 5, height 6),
five zero-length tEXt chunks, then a baSE chunk (baseline 3) that starts
at byte offset 93, beyond the 88-byte decoding cap — in base64. -/
def p109 : String :=
  "iVBORw0KGgoAAAANSUhEUgAAAAUAAAAGCAYAAAABAQEBAAAAAHRFWHQBAQEBAAAAAHRFWHQBAQEBAAAAAHRFWHQBAQEBAAAAAHRFWHQBAQEBAAAAAHRFWHQBAQEBAAAABGJhU0UAAAADAQEBAQ=="

/-- The PNG data URI carrying `p109`. -/
def imgC7 : Img := { src := "data:image/png;base64," ++ p109 }

/-- `imgC7` after `fixAfterResize` has stripped its geometry attributes. -/
def imgC7s : Img :=
  { imgC7 with width := none, height := none,
               styleVerticalAlign := none, styleMaxWidth := some "none" }

/-- Standard PNG encoding of an arbitrary chunk:
4-byte big-endian body length, 4-byte type, body, 4-byte CRC. -/
def encGChunk (typ : Nat) (body crc : List Nat) : List Nat :=
  be32 body.length ++ (be32 typ ++ (body ++ crc))

/-- Counterexample payload: signature, a standard unknown chunk (tEXt,
4-byte body), then a standard IHDR chunk with width 5 and height 6. -/
def cexC2 : List Nat := pngSig ++ (tEXtChunk4 ++ ihdrChunk56)

/-- Counterexample payload: signature, IHDR (width 5, height 6), a
standard unknown chunk (tEXt, 4-byte body), then a standard pHYs chunk
with X resolution 2835. -/
def cexC3 : List Nat := pngSig ++ (ihdrChunk56 ++ (tEXtChunk4 ++ physChunk2835))

/-- A 33-byte PNG-layout payload — signature plus a single IHDR chunk
with width 5 and height 6 — in base64 (decodes to fewer than 88 bytes). -/
def p33 : String := "iVBORw0KGgoAAAANSUhEUgAAAAUAAAAGCAYAAAABAQEB"

/-! ## Helper lemmas -/

lemma readInt32_len {l r : List Nat} {v : Nat} (h : readInt32 l = some (v, r)) :
    l.length = r.length + 4 := by
  match l with
  | [] | [_] | [_, _] | [_, _, _] => simp [readInt32] at h
  | a :: b :: c :: d :: rest =>
    simp only [readInt32, Option.some.injEq, Prod.mk.injEq] at h
    simp [← h.2]

lemma readByte_len {l r : List Nat} {v : Nat} (h : readByte l = some (v, r)) :
    l.length = r.length + 1 := by
  match l with
  | [] => simp [readByte] at h
  | a :: rest =>
    simp only [readByte, Option.some.injEq, Prod.mk.injEq] at h
    simp [← h.2]

lemma pngChunkBody_consumes {typ : Nat} {r2 r : List Nat} {acc acc2 : PngAcc}
    (h : pngChunkBody typ r2 acc = some (r, acc2)) : r.length ≤ r2.length := by
  unfold pngChunkBody at h
  split_ifs at h
  case _ =>
    split at h
    · exact absurd h (by simp)
    case _ w r3 h3 =>
      split at h
      · exact absurd h (by simp)
      case _ hh r4 h4 =>
        split at h
        · exact absurd h (by simp)
        case _ x r5 h5 =>
          split at h
          · exact absurd h (by simp)
          case _ y r6 h6 =>
            simp only [Option.some.injEq, Prod.mk.injEq] at h
            obtain ⟨hr, -⟩ := h
            subst hr
            have := readInt32_len h3
            have := readInt32_len h4
            have := readInt32_len h5
            have := readByte_len h6
            omega
  case _ =>
    split at h
    · exact absurd h (by simp)
    case _ b r3 h3 =>
      simp only [Option.some.injEq, Prod.mk.injEq] at h
      obtain ⟨hr, -⟩ := h
      subst hr
      have := readInt32_len h3
      omega
  case _ =>
    split at h
    · exact absurd h (by simp)
    case _ v r3 h3 =>
      split at h
      · exact absurd h (by simp)
      case _ x r4 h4 =>
        split at h
        · exact absurd h (by simp)
        case _ y r5 h5 =>
          simp only [Option.some.injEq, Prod.mk.injEq] at h
          obtain ⟨hr, -⟩ := h
          subst hr
          have := readInt32_len h3
          have := readInt32_len h4
          have := readByte_len h5
          omega
  case _ =>
    simp only [Option.some.injEq, Prod.mk.injEq] at h
    obtain ⟨hr, -⟩ := h
    subst hr
    omega

lemma pngStep_consumes {bytes rest : List Nat} {acc acc2 : PngAcc}
    (h : pngStep bytes acc = some (rest, acc2)) : rest.length + 12 ≤ bytes.length := by
  unfold pngStep at h
  split at h
  · exact absurd h (by simp)
  case _ len r1 h1 =>
    split at h
    · exact absurd h (by simp)
    case _ typ r2 h2 =>
      split at h
      · exact absurd h (by simp)
      case _ r acc3 h3 =>
        split at h
        · exact absurd h (by simp)
        case _ z rf h4 =>
          simp only [Option.some.injEq, Prod.mk.injEq] at h
          obtain ⟨hr, -⟩ := h
          subst hr
          have := readInt32_len h1
          have := readInt32_len h2
          have := pngChunkBody_consumes h3
          have := readInt32_len h4
          omega

lemma pngLoopF_fuel : ∀ (n : Nat) (bytes : List Nat) (acc : PngAcc) (f g : Nat),
    bytes.length ≤ n → bytes.length < f → bytes.length < g →
    pngLoopF f bytes acc = pngLoopF g bytes acc := by
  intro n
  induction n with
  | zero =>
    intro bytes acc f g hn hf hg
    obtain ⟨f2, rfl⟩ : ∃ f2, f = f2 + 1 := ⟨f - 1, by omega⟩
    obtain ⟨g2, rfl⟩ : ∃ g2, g = g2 + 1 := ⟨g - 1, by omega⟩
    have h4 : bytes.length < 4 := by omega
    simp [pngLoopF, h4]
  | succ n ih =>
    intro bytes acc f g hn hf hg
    obtain ⟨f2, rfl⟩ : ∃ f2, f = f2 + 1 := ⟨f - 1, by omega⟩
    obtain ⟨g2, rfl⟩ : ∃ g2, g = g2 + 1 := ⟨g - 1, by omega⟩
    by_cases h4 : bytes.length < 4
    · simp [pngLoopF, h4]
    · simp only [pngLoopF, h4, if_false]
      match hs : pngStep bytes acc with
      | none => rfl
      | some (rest, acc2) =>
        have hc := pngStep_consumes hs
        exact ih rest acc2 f2 g2 (by omega) (by omega) (by omega)

lemma pngLoopF_small {bytes : List Nat} {acc : PngAcc} {f : Nat}
    (h4 : bytes.length < 4) (hf : 0 < f) : pngLoopF f bytes acc = some acc := by
  obtain ⟨f2, rfl⟩ : ∃ f2, f = f2 + 1 := ⟨f - 1, by omega⟩
  simp [pngLoopF, h4]

lemma readInt32_be32 (n : Nat) (l : List Nat) (hn : n < 2 ^ 32) :
    readInt32 (be32 n ++ l) = some (n, l) := by
  simp only [be32, List.cons_append, List.nil_append, readInt32, Option.some.injEq,
    Prod.mk.injEq]
  exact ⟨by omega, trivial⟩

lemma pngStep_ihdr (w h e0 e1 e2 e3 e4 c0 c1 c2 c3 : Nat) (rest : List Nat) (acc : PngAcc)
    (hw : w < 2 ^ 32) (hh : h < 2 ^ 32) :
    pngStep (encChunk (.ihdr w h e0 e1 e2 e3 e4 c0 c1 c2 c3) ++ rest) acc
      = some (rest, { acc with width := some (w : ℚ), height := some (h : ℚ) }) := by
  simp only [encChunk, be32, List.append_assoc, List.cons_append, List.nil_append]
  simp only [pngStep, pngChunkBody, readInt32, readByte]
  norm_num
  constructor <;> (norm_cast; omega)

lemma pngStep_base (b c0 c1 c2 c3 : Nat) (rest : List Nat) (acc : PngAcc)
    (hb : b < 2 ^ 32) :
    pngStep (encChunk (.base b c0 c1 c2 c3) ++ rest) acc
      = some (rest, { acc with baseline := some (b : ℚ) }) := by
  simp only [encChunk, be32, List.append_assoc, List.cons_append, List.nil_append]
  simp only [pngStep, pngChunkBody, readInt32, readByte]
  norm_num
  norm_cast
  omega

lemma pngStep_phys (v y0 y1 y2 y3 u c0 c1 c2 c3 : Nat) (rest : List Nat) (acc : PngAcc)
    (hv : v < 2 ^ 32) :
    pngStep (encChunk (.phys v y0 y1 y2 y3 u c0 c1 c2 c3) ++ rest) acc
      = some (rest, { acc with dpi := some ((jsRound ((v : ℚ) / (3937 / 100)) : ℤ) : ℚ) }) := by
  simp only [encChunk, be32, List.append_assoc, List.cons_append, List.nil_append]
  simp only [pngStep, pngChunkBody, readInt32, readByte]
  norm_num
  congr 2
  norm_cast
  omega

lemma pngStep_encChunk (c : SChunk) (rest : List Nat) (acc : PngAcc) (hc : c.wfB = true) :
    pngStep (encChunk c ++ rest) acc = some (rest, stepSpec acc c) := by
  cases c with
  | ihdr w h e0 e1 e2 e3 e4 c0 c1 c2 c3 =>
    simp only [SChunk.wfB, Bool.and_eq_true, decide_eq_true_eq] at hc
    exact pngStep_ihdr w h e0 e1 e2 e3 e4 c0 c1 c2 c3 rest acc hc.1 hc.2
  | base b c0 c1 c2 c3 =>
    simp only [SChunk.wfB, decide_eq_true_eq] at hc
    exact pngStep_base b c0 c1 c2 c3 rest acc hc
  | phys v y0 y1 y2 y3 u c0 c1 c2 c3 =>
    simp only [SChunk.wfB, decide_eq_true_eq] at hc
    exact pngStep_phys v y0 y1 y2 y3 u c0 c1 c2 c3 rest acc hc

lemma encChunk_length_ge (c : SChunk) : 16 ≤ (encChunk c).length := by
  cases c <;> simp [encChunk, be32]

lemma pngLoopF_encChunks : ∀ (cs : List SChunk) (acc : PngAcc) (f : Nat),
    (∀ c ∈ cs, c.wfB = true) → (encChunks cs).length < f →
    pngLoopF f (encChunks cs) acc = some (cs.foldl stepSpec acc) := by
  intro cs
  induction cs with
  | nil =>
    intro acc f hwf hf
    exact pngLoopF_small (by simp [encChunks]) (by omega)
  | cons c cs ih =>
    intro acc f hwf hf
    have hlen : 16 ≤ (encChunk c).length := encChunk_length_ge c
    have hf1 : 0 < f := by omega
    obtain ⟨f2, rfl⟩ : ∃ f2, f = f2 + 1 := ⟨f - 1, by omega⟩
    have h4 : ¬ (encChunks (c :: cs)).length < 4 := by
      simp only [encChunks, List.length_append]
      omega
    rw [pngLoopF, if_neg h4, show encChunks (c :: cs) = encChunk c ++ encChunks cs from rfl,
      pngStep_encChunk c _ acc (hwf c (by simp))]
    rw [List.foldl_cons]
    exact ih (stepSpec acc c)  f2 (fun x hx => hwf x (by simp [hx]))
      (by simp only [encChunks, List.length_append] at hf; omega)

lemma foldl_no_ihdr : ∀ (cs : List SChunk) (acc : PngAcc),
    (∀ c ∈ cs, c.isIhdrB = false) →
    (cs.foldl stepSpec acc).width = acc.width ∧ (cs.foldl stepSpec acc).height = acc.height := by
  intro cs
  induction cs with
  | nil => intro acc h; exact ⟨rfl, rfl⟩
  | cons c cs ih =>
    intro acc h
    have hc := h c (by simp)
    have hrest : ∀ x ∈ cs, x.isIhdrB = false := fun x hx => h x (by simp [hx])
    rw [List.foldl_cons]
    cases c with
    | ihdr => simp [SChunk.isIhdrB] at hc
    | base b c0 c1 c2 c3 =>
      have := ih (stepSpec acc (.base b c0 c1 c2 c3)) hrest
      simpa [stepSpec] using this
    | phys v y0 y1 y2 y3 u c0 c1 c2 c3 =>
      have := ih (stepSpec acc (.phys v y0 y1 y2 y3 u c0 c1 c2 c3)) hrest
      simpa [stepSpec] using this

lemma foldl_no_phys : ∀ (cs : List SChunk) (acc : PngAcc),
    (∀ c ∈ cs, c.isPhysB = false) →
    (cs.foldl stepSpec acc).dpi = acc.dpi := by
  intro cs
  induction cs with
  | nil => intro acc h; rfl
  | cons c cs ih =>
    intro acc h
    have hc := h c (by simp)
    have hrest : ∀ x ∈ cs, x.isPhysB = false := fun x hx => h x (by simp [hx])
    rw [List.foldl_cons]
    cases c with
    | phys => simp [SChunk.isPhysB] at hc
    | ihdr w h2 e0 e1 e2 e3 e4 c0 c1 c2 c3 =>
      have := ih (stepSpec acc (.ihdr w h2 e0 e1 e2 e3 e4 c0 c1 c2 c3)) hrest
      simpa [stepSpec] using this
    | base b c0 c1 c2 c3 =>
      have := ih (stepSpec acc (.base b c0 c1 c2 c3)) hrest
      simpa [stepSpec] using this

lemma readBytesC_sig (sig r : List Nat) (hsig : sig.length = 8) :
    readBytesC 8 (sig ++ r) = some (sig, r) := by
  simp only [readBytesC, List.length_append, hsig]
  rw [if_neg (by omega)]
  rw [← hsig, List.take_left, List.drop_left]

lemma getMetrics_service (sig : List Nat) (cs : List SChunk)
    (hsig : sig.length = 8) (hwf : ∀ c ∈ cs, c.wfB = true) :
    getMetricsFromBytes (sig ++ encChunks cs) =
      (match (cs.foldl stepSpec {}).width with
       | none => none
       | some w =>
         some { cw := .num w,
                ch := match (cs.foldl stepSpec {}).height with | some h => .num h | none => .undef,
                dpi := match (cs.foldl stepSpec {}).dpi with | some d => .num d | none => .undef,
                cb := match (cs.foldl stepSpec {}).baseline with
                      | some b => if b = 0 then .undef else .num b
                      | none => .undef }) := by
  unfold getMetricsFromBytes
  simp only [readBytesC_sig sig _ hsig,
    pngLoopF_encChunks cs {} ((encChunks cs).length + 1) hwf (by omega)]

lemma foldl_width_isSome : ∀ (cs : List SChunk) (acc : PngAcc),
    acc.width.isSome = true → ((cs.foldl stepSpec acc).width).isSome = true := by
  intro cs
  induction cs with
  | nil => intro acc h; exact h
  | cons c cs ih =>
    intro acc h
    rw [List.foldl_cons]
    refine ih _ ?_
    cases c <;> simp [stepSpec] <;> exact h

/-! ## Claim theorems -/

/-- Claim C1 (code_bug evaluation).  The spec says an unknown chunk is
skipped by its `length` field and then past its 4-byte CRC trailer, so
that after the chunk the cursor sits on the next chunk header.  The code
never uses the `length` it reads (line 157): on the 16-byte standard tEXt
chunk `tEXtChunk4` (length 4, type tEXt, 4 body bytes, 4 CRC bytes) one
loop iteration consumes only 12 bytes — the final `readInt32` of line 173
eats the BODY, and the CRC bytes `[7, 7, 7, 7]` are still unread — instead
of consuming all 16 bytes as the claim requires. -/
theorem png_unknown_chunk_not_skipped :
    tEXtChunk4 = encGChunk 0x74455874 [9, 9, 9, 9] [7, 7, 7, 7]
    ∧ pngStep tEXtChunk4 {} = some ([7, 7, 7, 7], ({} : PngAcc))
    ∧ pngStep tEXtChunk4 {} ≠ some (([] : List Nat), ({} : PngAcc)) :=
  ⟨by decide, by decide, by decide⟩

/-- Claim C2 (counterexample).  A well-formed PNG payload — the 8-byte
signature followed by two standard chunks, where the second chunk is an
IHDR whose body starts with big-endian width 5 and height 6 — on which the
parser returns no metrics at all (because the unknown tEXt chunk before
the IHDR is not skipped by its length, the cursor desynchronizes and the
IHDR type is never seen), contradicting the claim that width/height are
extracted from every well-formed payload containing IHDR. -/
theorem png_wellformed_ihdr_missed :
    cexC2 = pngSig ++ (encGChunk 0x74455874 [9, 9, 9, 9] [7, 7, 7, 7]
        ++ encGChunk 0x49484452 (be32 5 ++ (be32 6 ++ [8, 6, 0, 0, 0])) [1, 1, 1, 1])
    ∧ pngSig.length = 8
    ∧ getMetricsFromBytes cexC2 = none :=
  ⟨by decide, by decide, by decide⟩

/-- Claim C2 (amended).  For a payload consisting of the 8-byte signature
followed by standard chunks in which the IHDR chunk comes FIRST and every
following chunk is one of the other two interpreted types (baSE or pHYs) —
the layout the rendering service produces — the parser returns metrics
whose width and height are exactly the two big-endian 32-bit integers at
the start of the IHDR body. -/
theorem png_ihdr_first_extraction (sig : List Nat)
    (w h e0 e1 e2 e3 e4 c0 c1 c2 c3 : Nat) (cs : List SChunk)
    (hsig : sig.length = 8) (hw : w < 2 ^ 32) (hh : h < 2 ^ 32)
    (hwf : ∀ c ∈ cs, c.wfB = true) (hni : ∀ c ∈ cs, c.isIhdrB = false) :
    ∃ arr : MetricsArr,
      getMetricsFromBytes (sig ++ encChunks (.ihdr w h e0 e1 e2 e3 e4 c0 c1 c2 c3 :: cs)) = some arr
      ∧ arr.cw = .num ((w : ℕ) : ℚ) ∧ arr.ch = .num ((h : ℕ) : ℚ) := by
  have hwf2 : ∀ c ∈ (SChunk.ihdr w h e0 e1 e2 e3 e4 c0 c1 c2 c3 :: cs), c.wfB = true := by
    intro c hc
    rcases List.mem_cons.mp hc with rfl | hc
    · simp only [SChunk.wfB, Bool.and_eq_true, decide_eq_true_eq]
      exact ⟨by omega, by omega⟩
    · exact hwf c hc
  rw [getMetrics_service sig _ hsig hwf2, List.foldl_cons]
  obtain ⟨hW, hH⟩ := foldl_no_ihdr cs (stepSpec {} (.ihdr w h e0 e1 e2 e3 e4 c0 c1 c2 c3)) hni
  rw [hW, hH]
  simp only [stepSpec]
  exact ⟨_, rfl, rfl, rfl⟩

/-- Claim C2 (witness): the amended theorem applied to the signature
followed by an IHDR chunk (width 300, height 150) and a baSE chunk. -/
theorem png_ihdr_first_extraction_witness :
    ∃ arr : MetricsArr,
      getMetricsFromBytes (pngSig ++ encChunks
          (.ihdr 300 150 8 6 0 0 0 1 1 1 1 :: [.base 30 0 0 0 0])) = some arr
      ∧ arr.cw = .num ((300 : ℕ) : ℚ) ∧ arr.ch = .num ((150 : ℕ) : ℚ) :=
  png_ihdr_first_extraction pngSig 300 150 8 6 0 0 0 1 1 1 1 [.base 30 0 0 0 0]
    (by decide) (by decide) (by decide) (by decide) (by decide)

/-- Claim C3 (counterexample).  A payload containing a standard pHYs chunk
whose X pixels-per-meter field holds 2835: the signature, an IHDR (width
5, height 6), an unknown tEXt chunk with a 4-byte body, then the pHYs
chunk.  Because the tEXt body is not skipped, the cursor desynchronizes
and the pHYs chunk is never interpreted: the extracted metrics carry NO
dpi entry (`JsVal.undef`) instead of `round(2835 / 39.37) = 72`. -/
theorem png_phys_dpi_missed :
    cexC3 = pngSig ++ (encGChunk 0x49484452 (be32 5 ++ (be32 6 ++ [8, 6, 0, 0, 0])) [1, 1, 1, 1]
        ++ (encGChunk 0x74455874 [9, 9, 9, 9] [7, 7, 7, 7]
        ++ encGChunk 0x70485973 (be32 2835 ++ (be32 2835 ++ [1])) [1, 1, 1, 1]))
    ∧ getMetricsFromBytes cexC3
        = some { cw := .num 5, ch := .num 6, cb := .undef, dpi := .undef } :=
  ⟨by decide, by decide⟩

/-- Claim C3 (amended).  For service-shaped payloads — IHDR first, every
further chunk among the interpreted types, exactly one pHYs chunk, with X
field `v` — the extracted dpi is `Math.round(v / 39.37)` (modelled as
`⌊v / (3937/100) + 1/2⌋` over ℚ); and the normalizer, given truthy width
and dpi, writes exactly the raw width, height and baseline rescaled by
`96 / dpi`, computing the vertical offset from the rescaled values. -/
theorem png_phys_dpi_and_rescale (sig : List Nat)
    (w h e0 e1 e2 e3 e4 c0 c1 c2 c3 : Nat)
    (v y0 y1 y2 y3 u p0 p1 p2 p3 : Nat) (cs1 cs2 : List SChunk)
    (hsig : sig.length = 8) (hw : w < 2 ^ 32) (hh : h < 2 ^ 32) (hv : v < 2 ^ 32)
    (hwf1 : ∀ c ∈ cs1, c.wfB = true) (hwf2 : ∀ c ∈ cs2, c.wfB = true)
    (hp1 : ∀ c ∈ cs1, c.isPhysB = false) (hp2 : ∀ c ∈ cs2, c.isPhysB = false) :
    (∃ arr : MetricsArr,
      getMetricsFromBytes (sig ++ encChunks
          (.ihdr w h e0 e1 e2 e3 e4 c0 c1 c2 c3
            :: (cs1 ++ .phys v y0 y1 y2 y3 u p0 p1 p2 p3 :: cs2))) = some arr
      ∧ arr.dpi = .num ((jsRound (((v : ℕ) : ℚ) / (3937 / 100)) : ℤ) : ℚ))
    ∧ (∀ (img : Img) (w2 h2 b2 d2 : ℚ), w2 ≠ 0 → d2 ≠ 0 →
        applyMetrics img (some { cw := .num w2, ch := .num h2, cb := .num b2, dpi := .num d2 })
          = { img with width := some (.num (w2 * 96 / d2)),
                       height := some (.num (h2 * 96 / d2)),
                       styleVerticalAlign := some (.num (h2 * 96 / d2 - b2 * 96 / d2)) }) := by
  constructor
  · have hwfP : (SChunk.phys v y0 y1 y2 y3 u p0 p1 p2 p3).wfB = true := by
      simp only [SChunk.wfB, decide_eq_true_eq]
      omega
    have hwfI : (SChunk.ihdr w h e0 e1 e2 e3 e4 c0 c1 c2 c3).wfB = true := by
      simp only [SChunk.wfB, Bool.and_eq_true, decide_eq_true_eq]
      exact ⟨by omega, by omega⟩
    have hwf2b : ∀ c ∈ (SChunk.ihdr w h e0 e1 e2 e3 e4 c0 c1 c2 c3
        :: (cs1 ++ SChunk.phys v y0 y1 y2 y3 u p0 p1 p2 p3 :: cs2)), c.wfB = true := by
      intro c hc
      rcases List.mem_cons.mp hc with rfl | hc
      · exact hwfI
      rcases List.mem_append.mp hc with hc | hc
      · exact hwf1 c hc
      rcases List.mem_cons.mp hc with rfl | hc
      · exact hwfP
      · exact hwf2 c hc
    rw [getMetrics_service sig _ hsig hwf2b, List.foldl_cons, List.foldl_append,
      List.foldl_cons]
    have hdpi := foldl_no_phys cs2
      (stepSpec (List.foldl stepSpec (stepSpec {} (.ihdr w h e0 e1 e2 e3 e4 c0 c1 c2 c3)) cs1)
        (.phys v y0 y1 y2 y3 u p0 p1 p2 p3)) hp2
    rw [hdpi]
    have hwidth : ((cs2.foldl stepSpec
        (stepSpec (List.foldl stepSpec (stepSpec {} (.ihdr w h e0 e1 e2 e3 e4 c0 c1 c2 c3)) cs1)
          (.phys v y0 y1 y2 y3 u p0 p1 p2 p3))).width).isSome = true := by
      refine foldl_width_isSome cs2 _ ?_
      simp only [stepSpec]
      refine foldl_width_isSome cs1 _ ?_
      simp [stepSpec]
    obtain ⟨w3, hw3⟩ := Option.isSome_iff_exists.mp hwidth
    rw [hw3]
    simp only [stepSpec]
    exact ⟨_, rfl, rfl⟩
  · intro img w2 h2 b2 d2 hw2 hd2
    simp [applyMetrics, jsFalsy, hw2, hd2, jsMul, jsDiv, jsSub, jsToNumber]

/-- Claim C3 (witness): the amended theorem applied to a concrete payload
(IHDR 5 by 6, one pHYs chunk with v = 2835) and to the normalizer with
width 10, height 20, baseline 5, dpi 48. -/
theorem png_phys_dpi_and_rescale_witness :
    (∃ arr : MetricsArr,
      getMetricsFromBytes (pngSig ++ encChunks
          (.ihdr 5 6 8 6 0 0 0 1 1 1 1
            :: ([] ++ .phys 2835 0 0 11 19 1 1 1 1 1 :: []))) = some arr
      ∧ arr.dpi = .num ((jsRound (((2835 : ℕ) : ℚ) / (3937 / 100)) : ℤ) : ℚ))
    ∧ applyMetrics { src := "x" } (some { cw := .num 10, ch := .num 20, cb := .num 5, dpi := .num 48 })
        = { src := "x", width := some (.num (10 * 96 / 48)), height := some (.num (20 * 96 / 48)),
            styleVerticalAlign := some (.num (20 * 96 / 48 - 5 * 96 / 48)), styleMaxWidth := none } :=
  ⟨(png_phys_dpi_and_rescale pngSig 5 6 8 6 0 0 0 1 1 1 1 2835 0 0 11 19 1 1 1 1 1 [] []
      (by decide) (by decide) (by decide) (by decide)
      (by simp) (by simp) (by simp) (by simp)).1,
   (png_phys_dpi_and_rescale pngSig 5 6 8 6 0 0 0 1 1 1 1 2835 0 0 11 19 1 1 1 1 1 [] []
      (by decide) (by decide) (by decide) (by decide)
      (by simp) (by simp) (by simp) (by simp)).2
     { src := "x" } 10 20 5 48 (by norm_num) (by norm_num)⟩

/-- Claim C8.  The chunk loop terminates on every finite input: the result
is independent of the fuel once the fuel exceeds the byte count (so the
loop stabilizes — each completed iteration consumes at least the 12 bytes
of the length, type and trailer reads, as the second conjunct states), and
whenever fewer than 4 bytes remain the loop exits in its natural terminal
state, returning the variables gathered so far. -/
theorem png_loop_terminates (bytes rest : List Nat) (acc acc2 : PngAcc) (f g : Nat)
    (hf : bytes.length < f) (hg : bytes.length < g) :
    pngLoopF f bytes acc = pngLoopF g bytes acc
    ∧ (pngStep bytes acc = some (rest, acc2) → rest.length + 12 ≤ bytes.length)
    ∧ (bytes.length < 4 → pngLoopF f bytes acc = some acc) :=
  ⟨pngLoopF_fuel bytes.length bytes acc f g le_rfl hf hg,
   fun hstep => pngStep_consumes hstep,
   fun h4 => pngLoopF_small h4 (by omega)⟩

/-- Claim C8 (witness): the termination theorem applied to the 16-byte
tEXt chunk with fuels 17 and 99. -/
theorem png_loop_terminates_witness :
    pngLoopF 17 tEXtChunk4 {} = pngLoopF 99 tEXtChunk4 {}
    ∧ (pngStep tEXtChunk4 {} = some ([7, 7, 7, 7], ({} : PngAcc)) →
        ([7, 7, 7, 7] : List Nat).length + 12 ≤ tEXtChunk4.length)
    ∧ (tEXtChunk4.length < 4 → pngLoopF 17 tEXtChunk4 {} = some {}) :=
  png_loop_terminates tEXtChunk4 [7, 7, 7, 7] {} {} 17 99 (by decide) (by decide)

/-- Claim C5 (counterexample).  Metrics with width 5 and height 6 but no
baseline: the claim says no vertical-align style is written, but the code
(line 86) writes it unconditionally — `height - baseline` is `NaN` and the
assigned CSS text is the invalid "-NaNpx".  The style field of the result
is `some`, not `none`. -/
theorem baseline_absent_style_written :
    (applyMetrics { src := "x" }
        (some { cw := .num 5, ch := .num 6, cb := .undef, dpi := .undef })).styleVerticalAlign
      = some .nan
    ∧ (applyMetrics { src := "x" }
        (some { cw := .num 5, ch := .num 6, cb := .undef, dpi := .undef })).styleVerticalAlign
      ≠ none :=
  ⟨by decide, by decide⟩

/-- Claim C5 (amended).  For metrics with truthy width: when the baseline
is the number `b`, the written vertical-align value is `height - b`
(the CSS text "-" ++ String(height - b) ++ "px", the negative offset of
the claim); when the baseline is absent the write still happens, but the
subtraction yields `NaN`, so the assigned CSS text "-NaNpx" is invalid and
carries no meaningful override. -/
theorem vertical_align_write (img : Img) (w h b : ℚ) (hw : w ≠ 0) :
    applyMetrics img (some { cw := .num w, ch := .num h, cb := .num b, dpi := .undef })
      = { img with width := some (.num w), height := some (.num h),
                   styleVerticalAlign := some (.num (h - b)) }
    ∧ applyMetrics img (some { cw := .num w, ch := .num h, cb := .undef, dpi := .undef })
      = { img with width := some (.num w), height := some (.num h),
                   styleVerticalAlign := some .nan } := by
  constructor <;> simp [applyMetrics, jsFalsy, hw, jsSub, jsToNumber]

/-- Claim C5 (witness): the amended theorem at width 5, height 6,
baseline 3. -/
theorem vertical_align_write_witness :
    applyMetrics { src := "x" } (some { cw := .num 5, ch := .num 6, cb := .num 3, dpi := .undef })
      = { src := "x", width := some (.num 5), height := some (.num 6),
          styleVerticalAlign := some (.num (6 - 3)), styleMaxWidth := none }
    ∧ applyMetrics { src := "x" } (some { cw := .num 5, ch := .num 6, cb := .undef, dpi := .undef })
      = { src := "x", width := some (.num 5), height := some (.num 6),
          styleVerticalAlign := some .nan, styleMaxWidth := none } :=
  vertical_align_write { src := "x" } 5 6 3 (by norm_num)

/-- Claim C9.  `getMetricsFromSvgString` never returns the absent-metrics
sentinel: the guard on line 134 applies typeof to a boolean comparison
result, which yields the nonempty (truthy) string "boolean",
so for EVERY input string a metrics mapping is returned, with the cw and
ch entries set to the extracted (string) values. -/
theorem svg_metrics_always_defined (s : String) :
    ∃ arr : MetricsArr, getMetricsFromSvgString s = some arr
      ∧ (∃ w, arr.cw = .str w) ∧ (∃ h, arr.ch = .str h) := by
  unfold getMetricsFromSvgString
  simp only [jsTypeof, jsFalsy, String.reduceEq, decide_False, if_true]
  exact ⟨_, rfl, ⟨_, rfl⟩, ⟨_, rfl⟩⟩

/-- Claim C10.  When `jsonResponse` is true and either the raster branch
or the SVG-with-base64-saveMode branch is taken, the payload is read from
`img.src`, not from the `uri` argument: two calls differing only in `uri`
write the same attributes. -/
theorem setimgsize_uri_independent (cfg : Config) (img : Img) (uri1 uri2 : String)
    (h : cfg.imageFormat ≠ "svg" ∨ cfg.saveMode = "base64") :
    setImgSize cfg img uri1 true = setImgSize cfg img uri2 true := by
  unfold setImgSize
  by_cases hf : cfg.imageFormat = "svg"
  · have hs : cfg.saveMode = "base64" := h.resolve_left (by simp [hf])
    simp [hf, hs]
  · simp [hf]

/-- Claim C10 (witness): raster configuration, two different uris. -/
theorem setimgsize_uri_independent_witness :
    setImgSize { imageFormat := "png", saveMode := "xml" } { src := "s" } "a" true
      = setImgSize { imageFormat := "png", saveMode := "xml" } { src := "s" } "b" true :=
  setimgsize_uri_independent { imageFormat := "png", saveMode := "xml" } { src := "s" } "a" "b"
    (Or.inl (by decide))

/-- Claim C4 (counterexample).  The SVG text "hello world" contains no
width attribute at all, yet sizing is NOT a no-op: the extractor falls
back on `indexOf` returning -1, the `substring` arguments swap, a nonempty
fragment of the input becomes the "width", the falsy-guard passes, and
width/height/vertical-align are all written to the element. -/
theorem svg_no_width_writes :
    jsIndexOf "hello world" "width=\"" = -1
    ∧ setImgSize { imageFormat := "svg", saveMode := "xml" } { src := "x" } "hello world" true
        = { src := "x", width := some (.str "hello "), height := some (.str "hello w"),
            styleVerticalAlign := some .nan, styleMaxWidth := none }
    ∧ setImgSize { imageFormat := "svg", saveMode := "xml" } { src := "x" } "hello world" true
        ≠ { src := "x" } :=
  ⟨by decide, by decide, by decide⟩

/-- Claim C4 (amended).  The no-op guarantee holds whenever the metrics
lookup yields no mapping or a falsy width: in particular for the PNG path
when the parser returns no metrics, and for the legacy URL path when the
`cw` key is absent.  For the SVG path the guarantee only holds when the
extracted width STRING is falsy (empty): a width-less SVG text can produce
a nonempty fragment as "width" (see the counterexample), in which case
attributes are written. -/
theorem no_width_no_geometry (cfg : Config) (img : Img) (uri : String) (arr : MetricsArr) :
    applyMetrics img none = img
    ∧ (jsFalsy arr.cw = true → applyMetrics img (some arr) = img)
    ∧ (cfg.imageFormat ≠ "svg" → pngMetricsOfImg img = none → setImgSize cfg img uri true = img)
    ∧ ((urlToAssArray uri).cw = .undef → setImgSize cfg img uri false = img)
    ∧ (cfg.imageFormat = "svg" → cfg.saveMode ≠ "base64" →
        getMetricsFromSvgString uri = some arr → jsFalsy arr.cw = true →
        setImgSize cfg img uri true = img) := by
  refine ⟨rfl, ?_, ?_, ?_, ?_⟩
  · intro h
    simp [applyMetrics, h]
  · intro h1 h2
    simp [setImgSize, h1, h2, applyMetrics]
  · intro h
    simp [setImgSize, applyMetrics, jsFalsy, h]
  · intro h1 h2 h3 h4
    simp [setImgSize, h1, h2, h3, applyMetrics, h4]

/-- Claim C4 (witness): a legacy URL with no `cw` key leaves the element
untouched. -/
theorem no_width_no_geometry_witness :
    (urlToAssArray "a?x=1").cw = .undef
    ∧ setImgSize { imageFormat := "svg", saveMode := "xml" } { src := "x" } "a?x=1" false
        = { src := "x" } :=
  ⟨by decide,
   (no_width_no_geometry { imageFormat := "svg", saveMode := "xml" } { src := "x" } "a?x=1"
       {}).2.2.2.1 (by decide)⟩

/-- Claim C6.  For any SVG text from which the first-match extraction
yields width "120", height "40" and baseline "30" (in particular the
canonical text of the claim, see the witness), sizing writes width "120"
(the number 120 via DOM coercion), height "40", and the vertical-align
offset value `40 - 30 = 10`, that is the CSS text "-10px". -/
theorem svg_example_geometry (img : Img) (s : String)
    (hs : getMetricsFromSvgString s
        = some { cw := .str "120", ch := .str "40", cb := .str "30", dpi := .undef }) :
    setImgSize { imageFormat := "svg", saveMode := "xml" } img s true
      = { img with width := some (.str "120"), height := some (.str "40"),
                   styleVerticalAlign := some (.num 10) } := by
  have h40 : jsToNumber (.str "40") = .num 40 := by decide
  have h30 : jsToNumber (.str "30") = .num 30 := by decide
  have hsub : jsSub (.str "40") (.str "30") = .num 10 := by
    simp only [jsSub, h40, h30, JsVal.num.injEq]
    norm_num
  simp [setImgSize, hs, applyMetrics, jsFalsy, hsub]

/-- Claim C6 (witness): the extraction on the canonical attribute text,
and the resulting geometry. -/
theorem svg_example_geometry_witness :
    getMetricsFromSvgString "width=\"120\" height=\"40\" wrs:baseline=\"30\""
      = some { cw := .str "120", ch := .str "40", cb := .str "30", dpi := .undef }
    ∧ setImgSize { imageFormat := "svg", saveMode := "xml" } { src := "x" }
        "width=\"120\" height=\"40\" wrs:baseline=\"30\"" true
      = { src := "x", width := some (.str "120"), height := some (.str "40"),
          styleVerticalAlign := some (.num 10), styleMaxWidth := none } :=
  ⟨by decide, svg_example_geometry { src := "x" } _ (by decide)⟩

lemma strData_append (s t : String) : (s ++ t).data = s.data ++ t.data := rfl

lemma jsIndexOf_dataImage (P : String) :
    jsIndexOf ("data:image/png;base64," ++ P) "data:image" = 0 := by
  simp [jsIndexOf, jsIndexOfFrom, strData_append, idxAux, listPre]

lemma jsIndexOf_b64 (P : String) :
    jsIndexOf ("data:image/png;base64," ++ P) "base64," = 15 := by
  simp [jsIndexOf, jsIndexOfFrom, strData_append, idxAux, listPre]

lemma drop_len_append {α : Type} (l1 l2 : List α) (n : Nat) (h : l1.length = n) :
    (l1 ++ l2).drop n = l2 := by
  subst h
  exact List.drop_left l1 l2

lemma jsSubstr_suffix (P : String) :
    jsSubstr ("data:image/png;base64," ++ P) 22 ((("data:image/png;base64," ++ P).data.length : ℕ) : Int) = P := by
  unfold jsSubstr
  rw [strData_append]
  simp only []
  rw [if_neg (by decide : ¬ ((22 : Int) < 0))]
  rw [show ((22 : Int).toNat) = 22 from rfl]
  rw [Int.toNat_natCast]
  rw [drop_len_append "data:image/png;base64,".data P.data 22 (by decide)]
  rw [List.take_of_length_le (by rw [List.length_append]; omega)]

set_option maxRecDepth 8000 in
/-- Claim C7 (counterexample).  For the PNG data URI carrying `p109` — a
109-byte payload whose baSE chunk starts beyond the 88-byte cap — the
resize path decodes only the first 88 bytes, the truncated parse fails and
NO geometry is applied (width and height stay absent), while direct PNG
parsing and normalization of the full raw bytes the payload encodes yields
width 5 and height 6 (with baseline 3): the two geometries differ, so the
claimed equivalence with the raw-byte parse fails. -/
theorem resize_rederivation_cap_counterexample :
    (fixAfterResize { imageFormat := "png", saveMode := "base64" } imgC7).width = none
    ∧ (fixAfterResize { imageFormat := "png", saveMode := "base64" } imgC7).height = none
    ∧ (directPngGeometry imgC7s p109).width = some (.num 5)
    ∧ (directPngGeometry imgC7s p109).height = some (.num 6) :=
  ⟨by decide, by decide, by decide, by decide⟩

/-- Claim C7 (amended).  Stripping the fixed 22-character PNG data-URI
prefix, the resize path reproduces exactly the normal pipeline: parsing of
AT MOST the first 88 decoded payload bytes (the cap `setImgSize` applies),
followed by normalization, applied to the attribute-stripped element; and
this coincides with direct PNG parsing and normalization of the full raw
bytes whenever the payload decodes to at most 88 bytes. -/
theorem resize_rederivation (cfg : Config) (img : Img) (P : String)
    (hfmt : cfg.imageFormat ≠ "svg")
    (hsrc : img.src = "data:image/png;base64," ++ P) :
    fixAfterResize cfg img
      = applyMetrics { img with width := none, height := none,
                                styleVerticalAlign := none, styleMaxWidth := some "none" }
          ((b64ToByteArray P 88).bind getMetricsFromBytes)
    ∧ (∀ bs : List Nat, b64DecodeList P.data = some bs → bs.length ≤ 88 →
        fixAfterResize cfg img
          = directPngGeometry { img with width := none, height := none,
                                         styleVerticalAlign := none, styleMaxWidth := some "none" } P) := by
  have hidx0 : jsIndexOf img.src "data:image" = 0 := by
    rw [hsrc]
    exact jsIndexOf_dataImage P
  have himg1 : ({ img with width := none, height := none, styleVerticalAlign := none, styleMaxWidth := some "none" } : Img).src = img.src := rfl
  have hpng : pngMetricsOfImg { img with width := none, height := none, styleVerticalAlign := none, styleMaxWidth := some "none" }
      = (b64ToByteArray P 88).bind getMetricsFromBytes := by
    unfold pngMetricsOfImg
    rw [himg1, hsrc, jsIndexOf_b64]
    rw [show ((15 : Int) + 7) = 22 from by norm_num]
    rw [jsSubstr_suffix]
    cases hdec : b64ToByteArray P 88 with
    | none => simp [hdec]
    | some bytes => simp [hdec]
  have hmain : fixAfterResize cfg img
      = applyMetrics { img with width := none, height := none, styleVerticalAlign := none, styleMaxWidth := some "none" }
          ((b64ToByteArray P 88).bind getMetricsFromBytes) := by
    unfold fixAfterResize
    rw [hidx0]
    rw [if_pos (by decide : (0 : Int) ≠ -1)]
    rw [if_neg hfmt]
    unfold setImgSize
    rw [if_pos rfl, if_neg hfmt, hpng]
  refine ⟨hmain, fun bs hbs hle => ?_⟩
  rw [hmain]
  unfold directPngGeometry
  rw [show b64ToByteArray P 88 = some bs from by
    rw [b64ToByteArray, hbs]
    simp [List.take_of_length_le hle]]
  rw [hbs]

/-- Claim C7 (witness): the amended theorem applied to the data URI
carrying `p33`, a payload decoding to 33 bytes (below the cap). -/
theorem resize_rederivation_witness :
    ((b64DecodeList p33.data).map List.length = some 33)
    ∧ (fixAfterResize { imageFormat := "png", saveMode := "base64" }
          { src := "data:image/png;base64," ++ p33 }
        = applyMetrics { src := ("data:image/png;base64," ++ p33 : String), width := none,
                         height := none, styleVerticalAlign := none, styleMaxWidth := some "none" }
            ((b64ToByteArray p33 88).bind getMetricsFromBytes)
      ∧ (∀ bs : List Nat, b64DecodeList p33.data = some bs → bs.length ≤ 88 →
          fixAfterResize { imageFormat := "png", saveMode := "base64" }
              { src := "data:image/png;base64," ++ p33 }
            = directPngGeometry { src := ("data:image/png;base64," ++ p33 : String), width := none,
                                  height := none, styleVerticalAlign := none,
                                  styleMaxWidth := some "none" } p33)) :=
  ⟨by decide,
   resize_rederivation { imageFormat := "png", saveMode := "base64" }
     { src := "data:image/png;base64," ++ p33 } p33 (by decide) rfl⟩
